import Mathlib

/-!
Shallow embedding of the rate-limiting, tier-resolution and auth layers of the
FastAPI boilerplate backend, with theorems checking the natural-language
specification against the code.

Source files embedded:
  * `src/app/schemas/rate_limit.py`   (`sanitize_path`, schemas)
  * `src/app/core/utils/rate_limit.py` (`is_rate_limited`)
  * `src/app/api/dependencies.py`      (`get_optional_user`, `rate_limiter`)
  * `src/app/api/v1/rate_limits.py`    (`write_rate_limit`, `patch_rate_limit`)
  * `src/app/core/security.py`         (`verify_token`, `blacklist_token`)
  * `src/app/core/config.py`           (default rate-limit settings)

Conventions: machine ints are `Nat` (timestamps, ids, limits, periods are
non-negative in every reachable state of the program); fallible code returns
`Except`; the Redis connection is a value threaded through calls, with a
`fail` field modelling an unreachable store (any operation raises).
-/

namespace FastApiBoilerplate

/-! ### `sanitize_path` (src/app/schemas/rate_limit.py, lines 9-10)

Python: `path.strip("/").replace("/", "_")`.  `strip("/")` removes every
leading and trailing `'/'`; `replace` with a one-character pattern is a
character-wise map. -/

/-- Remove every leading and trailing occurrence of `c` from the list,
mirroring Python's `str.strip("/")`. -/
def stripChar (c : Char) (l : List Char) : List Char :=
  ((l.dropWhile (· = c)).reverse.dropWhile (· = c)).reverse

/-- `sanitize_path` from `src/app/schemas/rate_limit.py`:
`path.strip("/").replace("/", "_")`. -/
def sanitize_path (path : String) : String :=
  ⟨(stripChar '/' path.data).map (fun c => if c = '/' then '_' else c)⟩

/-! ### The counter store (Redis) model

`src/app/core/utils/rate_limit.py` keeps a module-level `client: Redis | None`
and uses `incr` and `expire`.  We model the store as a total map from string
keys to counts plus a TTL map; `fail = some e` models an unreachable store:
every operation raises `e` (a Python exception bubbling out of the client). -/

structure Redis where
  store : String → Nat
  ttl : String → Option Nat
  fail : Option String

/-- A Redis instance with no keys set and a reachable server. -/
def freshRedis : Redis := ⟨fun _ => 0, fun _ => none, none⟩

/-- The store after writing value `n` at key `k`. -/
def Redis.withCount (r : Redis) (k : String) (n : Nat) : Redis :=
  { r with store := fun k' => if k' = k then n else r.store k' }

/-- The store after arming a TTL of `p` seconds on key `k`. -/
def Redis.withTtl (r : Redis) (k : String) (p : Nat) : Redis :=
  { r with ttl := fun k' => if k' = k then some p else r.ttl k' }

/-- `INCR key`: increments the integer at `key` (missing keys count as 0) and
returns the post-increment value. -/
def Redis.incr (r : Redis) (k : String) : Except String (Nat × Redis) :=
  match r.fail with
  | some e => .error e
  | none => .ok (r.store k + 1, r.withCount k (r.store k + 1))

/-- `EXPIRE key seconds`. -/
def Redis.expire (r : Redis) (k : String) (t : Nat) : Except String Redis :=
  match r.fail with
  | some e => .error e
  | none => .ok (r.withTtl k t)

/-! ### `is_rate_limited` (src/app/core/utils/rate_limit.py, lines 15-59) -/

/-- `window_start = current_timestamp - (current_timestamp % period)`
(line 42), i.e. `floor(now/period) * period`. -/
def windowStart (now period : Nat) : Nat := now - now % period

/-- The Redis key `f"ratelimit:{user_id}:{sanitized_path}:{window_start}"`
(line 45).  `user_id` is the rendered identity (user id or client host). -/
def rlKey (user_id sanitized_path : String) (window_start : Nat) : String :=
  "ratelimit:" ++ user_id ++ ":" ++ sanitized_path ++ ":" ++ toString window_start

/-- `is_rate_limited` from `src/app/core/utils/rate_limit.py`.  Returns
`True` iff the post-increment count for this identity/path/window key
exceeds `limit`; raises if the client is uninitialized or a store operation
fails (the `try`/`except` re-raises, line 57). -/
def is_rate_limited (client : Option Redis) (user_id path : String)
    (limit period now : Nat) : Except String (Bool × Redis) :=
  match client with
  | none => .error "Redis client is not initialized."
  | some r => do
    let window_start := windowStart now period
    let sanitized_path := sanitize_path path
    let key := rlKey user_id sanitized_path window_start
    let (current_count, r1) ← r.incr key
    let r2 ← if current_count = 1 then r1.expire key period else pure r1
    if current_count > limit then
      pure (true, r2)
    else
      pure (false, r2)

/-- Run a sequence of `is_rate_limited` checks for one identity/path/rule,
at the given timestamps, threading the store state; collects the per-request
answers.  The first store fault aborts the run, as each fault fails the
enclosing request. -/
def runIsRateLimited (client : Option Redis) (user_id path : String)
    (limit period : Nat) : List Nat → Except String (List Bool × Option Redis)
  | [] => .ok ([], client)
  | t :: ts => do
    let (b, r) ← is_rate_limited client user_id path limit period t
    let (bs, c') ← runIsRateLimited (some r) user_id path limit period ts
    pure (b :: bs, c')

/-- `Except.bind` on an `ok` value reduces to the continuation. -/
theorem except_bind_ok {α β ε : Type} (x : α) (f : α → Except ε β) :
    (Except.ok x : Except ε α) >>= f = f x := rfl

/-- `Except.bind` on a pure value reduces to the continuation. -/
theorem except_pure_bind {α β ε : Type} (x : α) (f : α → Except ε β) :
    (pure x : Except ε α) >>= f = f x := rfl

/-- Writing a key leaves the `fail` flag unchanged. -/
theorem Redis.withCount_fail (r : Redis) (k : String) (n : Nat) :
    (r.withCount k n).fail = r.fail := rfl

/-- Arming a TTL leaves counts and the `fail` flag unchanged. -/
theorem Redis.withTtl_store (r : Redis) (k : String) (p : Nat) :
    (r.withTtl k p).store = r.store := rfl

/-- One `is_rate_limited` call against a reachable store: it returns
`count+1 > limit` where `count` is the stored value at the window key, and
increments exactly that key. -/
theorem is_rate_limited_ok (r : Redis) (h : r.fail = none) (user_id path : String)
    (limit period t : Nat) :
    ∃ r', is_rate_limited (some r) user_id path limit period t
        = .ok (decide (limit < r.store (rlKey user_id (sanitize_path path) (windowStart t period)) + 1), r')
      ∧ r'.fail = none
      ∧ (∀ k', r'.store k' =
          if k' = rlKey user_id (sanitize_path path) (windowStart t period)
          then r.store (rlKey user_id (sanitize_path path) (windowStart t period)) + 1
          else r.store k') := by
  set key := rlKey user_id (sanitize_path path) (windowStart t period) with hkey
  by_cases h1 : r.store key + 1 = 1
  · refine ⟨(r.withCount key (r.store key + 1)).withTtl key period, ?_, h, fun k' => rfl⟩
    simp only [is_rate_limited, Redis.incr, h, ← hkey, except_bind_ok]
    rw [if_pos h1]
    simp only [Redis.expire, Redis.withCount_fail, h, except_bind_ok]
    by_cases h2 : limit < r.store key + 1
    · rw [if_pos h2, decide_eq_true h2]; rfl
    · rw [if_neg h2, decide_eq_false h2]; rfl
  · refine ⟨r.withCount key (r.store key + 1), ?_, h, fun k' => rfl⟩
    simp only [is_rate_limited, Redis.incr, h, ← hkey, except_bind_ok]
    rw [if_neg h1]
    simp only [except_pure_bind, gt_iff_lt]
    by_cases h2 : limit < r.store key + 1
    · rw [if_pos h2, decide_eq_true h2]; rfl
    · rw [if_neg h2, decide_eq_false h2]; rfl

/-- A run of `is_rate_limited` calls all falling in the same window `w`:
the `j`-th call (0-based) answers `count₀ + j + 1 > limit`, the window key's
counter advances by the number of calls, and no other key changes. -/
theorem runIsRateLimited_const_window (user_id path : String) (limit period w : Nat)
    (key : String) (hk : key = rlKey user_id (sanitize_path path) w) :
    ∀ (ts : List Nat) (r : Redis), r.fail = none → (∀ t ∈ ts, windowStart t period = w) →
    ∃ r', runIsRateLimited (some r) user_id path limit period ts
        = .ok ((List.range ts.length).map (fun j => decide (limit < r.store key + j + 1)), some r')
      ∧ r'.fail = none
      ∧ (∀ k', k' ≠ key → r'.store k' = r.store k')
      ∧ r'.store key = r.store key + ts.length
  | [], r, hfail, _ => ⟨r, by simp [runIsRateLimited], hfail, fun _ _ => rfl, rfl⟩
  | t :: ts, r, hfail, hw => by
    obtain ⟨r1, hcall, hfail1, hstore1⟩ :=
      is_rate_limited_ok r hfail user_id path limit period t
    have hwt : windowStart t period = w := hw t (List.mem_cons_self t ts)
    rw [hwt, ← hk] at hcall hstore1
    obtain ⟨r', hrun, hfail', hother', hkey'⟩ :=
      runIsRateLimited_const_window user_id path limit period w key hk ts r1 hfail1
        (fun t' ht' => hw t' (List.mem_cons_of_mem t ht'))
    have hr1key : r1.store key = r.store key + 1 := by rw [hstore1 key, if_pos rfl]
    refine ⟨r', ?_, hfail', ?_, ?_⟩
    · simp only [runIsRateLimited, hcall, except_bind_ok, hrun, List.length_cons,
        List.range_succ_eq_map, List.map_cons, List.map_map]
      have htail : (List.range ts.length).map
            ((fun j => decide (limit < r.store key + j + 1)) ∘ Nat.succ)
          = (List.range ts.length).map (fun j => decide (limit < r1.store key + j + 1)) := by
        refine List.map_congr_left (fun j _ => ?_)
        simp only [Function.comp_apply, hr1key]
        have harith : r.store key + (j + 1) + 1 = r.store key + 1 + j + 1 := by omega
        rw [harith]
      rw [htail]
      simp [pure, Except.pure]
    · intro k' hne
      rw [hother' k' hne, hstore1 k', if_neg hne]
    · rw [hkey', hr1key, List.length_cons]; omega

/-- C1: for every identity, path, limit `L ≥ 0` and period `T > 0`, within a
single fixed window aligned to `floor(t/T)*T`, `is_rate_limited` answers
`False` (allowed) for the 1st through `L`-th requests and `True` (rejected)
for the `(L+1)`-th and every later request of that window; with `L = 0`
every request in the window is rejected. -/
theorem rate_limit_fixed_window_quota (user_id path : String) (L T t n : Nat)
    (hT : 0 < T) :
    ∃ res r', runIsRateLimited (some freshRedis) user_id path L T (List.replicate n t)
        = .ok (res, some r')
      ∧ res.length = n
      ∧ (∀ j, j < n → (j + 1 ≤ L → res[j]? = some false) ∧ (L < j + 1 → res[j]? = some true))
      ∧ (L = 0 → ∀ j, j < n → res[j]? = some true) := by
  obtain ⟨r', hrun, -, -, -⟩ :=
    runIsRateLimited_const_window user_id path L T (windowStart t T)
      (rlKey user_id (sanitize_path path) (windowStart t T)) rfl
      (List.replicate n t) freshRedis rfl
      (fun t' ht' => by rw [List.eq_of_mem_replicate ht'])
  rw [List.length_replicate] at hrun
  refine ⟨(List.range n).map (fun j => decide (L < freshRedis.store
      (rlKey user_id (sanitize_path path) (windowStart t T)) + j + 1)), r', hrun, ?_, ?_, ?_⟩
  · simp
  · intro j hj
    constructor
    · intro hjL
      simp only [List.getElem?_map, List.getElem?_range hj, Option.map_some]
      have : ¬ L < j + 1 := by omega
      simp [freshRedis, this]
    · intro hLj
      simp only [List.getElem?_map, List.getElem?_range hj, Option.map_some]
      simp [freshRedis, hLj]
  · intro hL0 j hj
    simp only [List.getElem?_map, List.getElem?_range hj, Option.map_some]
    simp [freshRedis, hL0]

/-- Witness for C1 at `L = 2`, `T = 60`, four requests at `t = 1000`. -/
theorem rate_limit_fixed_window_quota_witness :
    0 < 60 ∧
    ∃ res r', runIsRateLimited (some freshRedis) "7" "users" 2 60 (List.replicate 4 1000)
        = .ok (res, some r')
      ∧ res.length = 4
      ∧ (∀ j, j < 4 → (j + 1 ≤ 2 → res[j]? = some false) ∧ (2 < j + 1 → res[j]? = some true))
      ∧ (2 = 0 → ∀ j, j < 4 → res[j]? = some true) :=
  ⟨by decide, rate_limit_fixed_window_quota "7" "users" 2 60 1000 4 (by decide)⟩

/-! ### Distinctness of window keys

The Redis key embeds `window_start` through `toString`; we prove decimal
rendering of naturals injective so distinct windows give distinct keys. -/

/-- Reversed decimal digit characters of `n`, the specification of
`Nat.toDigits 10 n`. -/
def decRep (n : Nat) : List Char :=
  if n = 0 then ['0'] else ((Nat.digits 10 n).map Nat.digitChar).reverse

theorem digitChar_inj_lt10 : ∀ d1 < 10, ∀ d2 < 10,
    Nat.digitChar d1 = Nat.digitChar d2 → d1 = d2 := by decide

theorem map_digitChar_inj : ∀ (l1 l2 : List Nat), (∀ x ∈ l1, x < 10) →
    (∀ x ∈ l2, x < 10) → l1.map Nat.digitChar = l2.map Nat.digitChar → l1 = l2
  | [], [], _, _, _ => rfl
  | [], _ :: _, _, _, h => by simp at h
  | _ :: _, [], _, _, h => by simp at h
  | a :: l1, b :: l2, h1, h2, h => by
    simp only [List.map_cons, List.cons.injEq] at h
    have ha : a = b := digitChar_inj_lt10 a (h1 a (List.mem_cons_self a l1))
      b (h2 b (List.mem_cons_self b l2)) h.1
    have htl : l1 = l2 := map_digitChar_inj l1 l2
      (fun x hx => h1 x (List.mem_cons_of_mem a hx))
      (fun x hx => h2 x (List.mem_cons_of_mem b hx)) h.2
    rw [ha, htl]

theorem toDigitsCore_eq_decRep : ∀ (f n : Nat) (l : List Char), n < 10 ^ f → 0 < f →
    Nat.toDigitsCore 10 f n l = decRep n ++ l
  | 0, _, _, _, hf => absurd hf (by omega)
  | f + 1, n, l, hn, _ => by
    by_cases hdiv : n / 10 = 0
    · have hn10 : n < 10 := by omega
      simp only [Nat.toDigitsCore, hdiv, if_pos rfl]
      by_cases hn0 : n = 0
      · subst hn0; rfl
      · have hdig : Nat.digits 10 n = [n % 10] := by
          rw [Nat.digits_def' (by norm_num : 1 < 10) (Nat.pos_of_ne_zero hn0), hdiv,
            Nat.digits_zero]
        simp [decRep, hn0, hdig]
    · have hn0 : n ≠ 0 := fun h => hdiv (by simp [h])
      have hquot : n / 10 < 10 ^ f := by
        rw [Nat.div_lt_iff_lt_mul (by norm_num : 0 < 10)]
        calc n < 10 ^ (f + 1) := hn
        _ = 10 ^ f * 10 := by ring
      have hf0 : 0 < f := by
        rcases Nat.eq_zero_or_pos f with hf | hf
        · exfalso; rw [hf] at hquot; omega
        · exact hf
      have hrec := toDigitsCore_eq_decRep f (n / 10) (Nat.digitChar (n % 10) :: l)
        hquot hf0
      simp only [Nat.toDigitsCore, hdiv, if_neg hdiv]
      rw [hrec]
      have hdig : Nat.digits 10 n = n % 10 :: Nat.digits 10 (n / 10) :=
        Nat.digits_def' (by norm_num : 1 < 10) (Nat.pos_of_ne_zero hn0)
      simp [decRep, hn0, hdiv, hdig, List.append_assoc]

theorem toDigits_eq_decRep (n : Nat) : Nat.toDigits 10 n = decRep n := by
  have hlt : n < 10 ^ (n + 1) := by
    calc n < 2 ^ n := Nat.lt_two_pow n
    _ ≤ 10 ^ n := Nat.pow_le_pow_left (by norm_num) n
    _ ≤ 10 ^ (n + 1) := Nat.pow_le_pow_right (by norm_num) (Nat.le_succ n)
  have := toDigitsCore_eq_decRep (n + 1) n [] hlt (Nat.succ_pos n)
  simpa [Nat.toDigits] using this

/-- A nonzero natural's reversed digit characters are never the single
character `'0'`. -/
theorem decRep_pos_ne_zero_char (m : Nat) (hm : m ≠ 0)
    (h : ((Nat.digits 10 m).map Nat.digitChar).reverse = ['0']) : False := by
  have hmap : (Nat.digits 10 m).map Nat.digitChar = ['0'] := by
    have := congrArg List.reverse h
    simpa using this
  have hdig : Nat.digits 10 m = [0] :=
    map_digitChar_inj (Nat.digits 10 m) [0]
      (fun x hx => Nat.digits_lt_base (by norm_num) hx) (by simp) (by simpa using hmap)
  have hrt := Nat.ofDigits_digits 10 m
  rw [hdig] at hrt
  simp [Nat.ofDigits] at hrt
  exact hm hrt.symm

theorem decRep_inj (n m : Nat) (h : decRep n = decRep m) : n = m := by
  by_cases hn : n = 0 <;> by_cases hm : m = 0
  · rw [hn, hm]
  · exfalso
    simp only [decRep, hn, if_pos rfl, if_neg hm] at h
    exact decRep_pos_ne_zero_char m hm h.symm
  · exfalso
    simp only [decRep, hm, if_pos rfl, if_neg hn] at h
    exact decRep_pos_ne_zero_char n hn h
  · simp only [decRep, if_neg hn, if_neg hm] at h
    have hmap := List.reverse_injective h
    have hdig := map_digitChar_inj (Nat.digits 10 n) (Nat.digits 10 m)
      (fun x hx => Nat.digits_lt_base (by norm_num) hx)
      (fun x hx => Nat.digits_lt_base (by norm_num) hx) hmap
    calc n = Nat.ofDigits 10 (Nat.digits 10 n) := (Nat.ofDigits_digits 10 n).symm
    _ = Nat.ofDigits 10 (Nat.digits 10 m) := by rw [hdig]
    _ = m := Nat.ofDigits_digits 10 m

theorem nat_toString_inj (n m : Nat) (h : toString n = toString m) : n = m := by
  have h' : Nat.toDigits 10 n = Nat.toDigits 10 m := by
    have hs : (Nat.toDigits 10 n).asString = (Nat.toDigits 10 m).asString := h
    simpa [List.asString] using congrArg String.data hs
  rw [toDigits_eq_decRep, toDigits_eq_decRep] at h'
  exact decRep_inj n m h'

/-- Appending to a fixed prefix is injective. -/
theorem string_append_right_inj (a x y : String) (h : a ++ x = a ++ y) : x = y := by
  have hd := congrArg String.data h
  simp only [String.data_append] at hd
  exact String.ext (List.append_cancel_left hd)

/-- Distinct window starts yield distinct rate-limit keys. -/
theorem rlKey_window_inj (user_id sanitized_path : String) (w1 w2 : Nat)
    (h : rlKey user_id sanitized_path w1 = rlKey user_id sanitized_path w2) : w1 = w2 := by
  unfold rlKey at h
  have := string_append_right_inj _ _ _ h
  exact nat_toString_inj w1 w2 this

theorem windowStart_eq (t T : Nat) : windowStart t T = T * (t / T) := by
  unfold windowStart
  exact (Nat.sub_eq_iff_eq_add (Nat.mod_le t T)).mpr (Nat.div_add_mod t T).symm

theorem windowStart_mono (t1 t2 T : Nat) (h : t1 ≤ t2) :
    windowStart t1 T ≤ windowStart t2 T := by
  rw [windowStart_eq, windowStart_eq]
  exact Nat.mul_le_mul_left T (Nat.div_le_div_right h)

theorem windowStart_of_mul (T k : Nat) (hT : 0 < T) : windowStart (T * k) T = T * k := by
  rw [windowStart_eq, Nat.mul_div_cancel_left k hT]

/-- A request at or after `window_start + T` falls in a strictly later
window. -/
theorem windowStart_next_gt (t t' T : Nat) (hT : 0 < T)
    (ht' : windowStart t T + T ≤ t') : windowStart t T < windowStart t' T := by
  have h1 : windowStart t T + T = T * (t / T + 1) := by rw [windowStart_eq]; ring
  have h2 : windowStart (windowStart t T + T) T = windowStart t T + T := by
    rw [h1, windowStart_of_mul T _ hT]
  have h3 : windowStart t T + T ≤ windowStart t' T := by
    calc windowStart t T + T = windowStart (windowStart t T + T) T := h2.symm
    _ ≤ windowStart t' T := windowStart_mono _ _ T ht'
  omega

/-- C2: crossing a window boundary resets the count.  A request at or after
`window_start + T` (with `window_start = floor(now/T)*T`, computed as
`now - (now % T)`) is counted under a fresh key — distinct from the previous
window's key — and is allowed (for a rule with `limit ≥ 1`) whatever counts
the store holds for earlier windows, in particular when the previous window's
limit was exhausted. -/
theorem rate_limit_window_reset (user_id path : String) (L T t t' : Nat) (r : Redis)
    (hT : 0 < T) (hL : 1 ≤ L) (hfail : r.fail = none)
    (ht' : windowStart t T + T ≤ t')
    (hfresh : r.store (rlKey user_id (sanitize_path path) (windowStart t' T)) = 0) :
    rlKey user_id (sanitize_path path) (windowStart t' T)
      ≠ rlKey user_id (sanitize_path path) (windowStart t T)
    ∧ ∃ r', is_rate_limited (some r) user_id path L T t' = .ok (false, r')
        ∧ r'.store (rlKey user_id (sanitize_path path) (windowStart t' T)) = 1 := by
  have hwlt : windowStart t T < windowStart t' T := windowStart_next_gt t t' T hT ht'
  constructor
  · intro heq
    have := rlKey_window_inj user_id (sanitize_path path) _ _ heq
    omega
  · obtain ⟨r', hcall, -, hstore⟩ := is_rate_limited_ok r hfail user_id path L T t'
    rw [hfresh] at hcall
    have hdec : decide (L < 0 + 1) = false := by
      have : ¬ L < 0 + 1 := by omega
      exact decide_eq_false this
    rw [hdec] at hcall
    refine ⟨r', hcall, ?_⟩
    rw [hstore _, if_pos rfl, hfresh]

/-- Witness for C2: previous window `[960,1020)` exhausted (count 5 at its
key), a request at `t' = 1020` is allowed under limit 1. -/
theorem rate_limit_window_reset_witness :
    (0 < 60 ∧ 1 ≤ 1 ∧ ({ freshRedis with
        store := fun k => if k = rlKey "7" (sanitize_path "users") (windowStart 1000 60)
                          then 5 else 0 } : Redis).fail = none
      ∧ windowStart 1000 60 + 60 ≤ 1020
      ∧ ({ freshRedis with
        store := fun k => if k = rlKey "7" (sanitize_path "users") (windowStart 1000 60)
                          then 5 else 0 } : Redis).store
          (rlKey "7" (sanitize_path "users") (windowStart 1020 60)) = 0)
    ∧ (rlKey "7" (sanitize_path "users") (windowStart 1020 60)
        ≠ rlKey "7" (sanitize_path "users") (windowStart 1000 60)
      ∧ ∃ r', is_rate_limited (some { freshRedis with
          store := fun k => if k = rlKey "7" (sanitize_path "users") (windowStart 1000 60)
                            then 5 else 0 }) "7" "users" 1 60 1020 = .ok (false, r')
        ∧ r'.store (rlKey "7" (sanitize_path "users") (windowStart 1020 60)) = 1) :=
  have hfresh : ({ freshRedis with
      store := fun k => if k = rlKey "7" (sanitize_path "users") (windowStart 1000 60)
                        then 5 else 0 } : Redis).store
        (rlKey "7" (sanitize_path "users") (windowStart 1020 60)) = 0 := by
    simp only []
    rw [if_neg (by decide)]
  ⟨⟨by decide, by decide, rfl, by decide, hfresh⟩,
    rate_limit_window_reset "7" "users" 1 60 1000 1020 _ (by decide) (by decide) rfl
      (by decide) hfresh⟩

/-- C8: if the counter store is unreachable or its client uninitialized,
`is_rate_limited` raises instead of answering: the uninitialized client is a
hard fault, and any store exception is re-raised verbatim, never turned into
an allow/deny value. -/
theorem rate_limit_store_fault_propagates (user_id path : String) (limit period t : Nat) :
    is_rate_limited none user_id path limit period t
        = .error "Redis client is not initialized."
    ∧ ∀ (r : Redis) (e : String), r.fail = some e →
        is_rate_limited (some r) user_id path limit period t = .error e := by
  refine ⟨rfl, fun r e hfail => ?_⟩
  simp only [is_rate_limited, Redis.incr, hfail]
  rfl

/-- Witness for C8: uninitialized client and an unreachable store both raise. -/
theorem rate_limit_store_fault_propagates_witness :
    is_rate_limited none "7" "users" 1 60 0 = .error "Redis client is not initialized."
    ∧ is_rate_limited (some { freshRedis with fail := some "connection refused" })
        "7" "users" 1 60 0 = .error "connection refused" :=
  ⟨(rate_limit_store_fault_propagates "7" "users" 1 60 0).1,
   (rate_limit_store_fault_propagates "7" "users" 1 60 0).2 _ "connection refused" rfl⟩

/-- C7: `sanitize_path` strips leading and trailing `'/'` and replaces every
remaining `'/'` with `'_'`; `"/users/"`, `"users"` and `"/users"` all map to
the one partition key `"users"`, and no sanitized path contains `'/'`. -/
theorem sanitize_path_normalizes :
    sanitize_path "/users/" = "users" ∧ sanitize_path "users" = "users"
    ∧ sanitize_path "/users" = "users"
    ∧ ∀ (s : String), ∀ c ∈ (sanitize_path s).data, c ≠ '/' := by
  refine ⟨by decide, by decide, by decide, fun s c hc => ?_⟩
  obtain ⟨a, -, ha⟩ := List.mem_map.mp hc
  by_cases h : a = '/' <;> rw [← ha] <;> simp [h]

/-- Witness for C7's universally quantified part at `"/a/b/"`. -/
theorem sanitize_path_normalizes_witness :
    '_' ∈ (sanitize_path "/a/b/").data ∧ '_' ≠ '/' :=
  ⟨by decide, sanitize_path_normalizes.2.2.2 "/a/b/" '_' (by decide)⟩

/-! ### Persistent entities and the CRUD layer

`src/app/models/tier.py` and `src/app/models/rate_limit.py`; the endpoints
reach them through `fastcrud` (`crud_tiers`, `crud_rate_limits`): `get` is
first row matching the filters, `exists` is a filtered existence test,
`create` appends a row with a fresh autoincrement id, `update` writes the
fields that were set on the update schema.  A filter comparing a column with
`None` is SQL `IS NULL`; comparisons with SQL `NULL` never match a non-null
column, which we mirror with `sqlEqOpt`. -/

structure Tier where
  id : Nat
  name : String
deriving DecidableEq

structure RateLimitRule where
  id : Nat
  tier_id : Nat
  path : String
  limit : Nat
  period : Nat
  name : Option String
deriving DecidableEq

structure Db where
  tiers : List Tier
  rateLimits : List RateLimitRule
  nextId : Nat
deriving DecidableEq

/-- SQL equality of a nullable column value against a nullable filter value:
any comparison involving `NULL` is not a match. -/
def sqlEqOpt (column filt : Option String) : Bool :=
  match column, filt with
  | some x, some y => x == y
  | _, _ => false

/-- `crud_tiers.get(db=db, name=tier_name)`. -/
def getTierByName (db : Db) (tier_name : String) : Option Tier :=
  db.tiers.find? (fun t => t.name == tier_name)

/-- `crud_tiers.get(db, id=tier_id)` where `tier_id` comes from the nullable
`user.tier_id` column. -/
def getTierById (db : Db) (tier_id : Option Nat) : Option Tier :=
  db.tiers.find? (fun t => match tier_id with
    | none => false
    | some i => t.id == i)

/-- `src/app/schemas/rate_limit.py` `RateLimitCreate` after pydantic
validation (the `path` validator has already applied `sanitize_path`). -/
structure RateLimitCreate where
  path : String
  limit : Nat
  period : Nat
  name : Option String

/-- `src/app/schemas/rate_limit.py` `RateLimitUpdate` after pydantic
validation: unset fields are `none`, a set `path` has been sanitized. -/
structure RateLimitUpdate where
  path : Option String
  limit : Option Nat
  period : Option Nat
  name : Option String

/-- `fastcrud` `update` applied to one row: fields set on the update schema
overwrite the row, unset fields are left alone. -/
def applyUpdate (r : RateLimitRule) (v : RateLimitUpdate) : RateLimitRule :=
  { r with
    path := v.path.getD r.path
    limit := v.limit.getD r.limit
    period := v.period.getD r.period
    name := match v.name with
      | some s => some s
      | none => r.name }

inductive ApiError where
  | notFound (msg : String)
  | duplicateValue (msg : String)
deriving DecidableEq

/-- `write_rate_limit` (src/app/api/v1/rate_limits.py, lines 17-53): resolve
the tier by name, reject a duplicate *name*, then create the rule for that
tier.  The pydantic `path` validator has sanitized `rate_limit.path` before
the handler runs. -/
def write_rate_limit (db : Db) (tier_name : String) (rate_limit : RateLimitCreate) :
    Except ApiError (Db × RateLimitRule) :=
  match getTierByName db tier_name with
  | none => .error (.notFound "Tier not found")
  | some db_tier =>
    if db.rateLimits.any (fun r => sqlEqOpt r.name rate_limit.name) then
      .error (.duplicateValue "Rate Limit Name not available")
    else
      let created : RateLimitRule :=
        { id := db.nextId, tier_id := db_tier.id, path := rate_limit.path,
          limit := rate_limit.limit, period := rate_limit.period,
          name := rate_limit.name }
      .ok ({ db with rateLimits := db.rateLimits ++ [created], nextId := db.nextId + 1 },
           created)

/-- `patch_rate_limit` (src/app/api/v1/rate_limits.py, lines 138-184):
resolve tier and rule, reject when any rule of the tier already has
`values.path` (the target rule included), re-test the same flag after an
unfiltered `exists` whose result is discarded (lines 179-181, kept verbatim),
then update the row. -/
def patch_rate_limit (db : Db) (tier_name : String) (id : Nat)
    (values : RateLimitUpdate) : Except ApiError Db :=
  match getTierByName db tier_name with
  | none => .error (.notFound "Tier not found")
  | some db_tier =>
    match db.rateLimits.find? (fun r => r.tier_id == db_tier.id && r.id == id) with
    | none => .error (.notFound "Rate Limit not found")
    | some db_rate_limit =>
      let db_rate_limit_path :=
        db.rateLimits.any (fun r => r.tier_id == db_tier.id
          && sqlEqOpt (some r.path) values.path)
      if db_rate_limit_path then
        .error (.duplicateValue "There is already a rate limit for this path")
      else
        let _discarded := db.rateLimits.length ≠ 0
        if db_rate_limit_path then
          .error (.duplicateValue "There is already a rate limit with this name")
        else
          .ok { db with rateLimits :=
            (db.rateLimits.map (fun r =>
              if r.id == db_rate_limit.id then applyUpdate r values else r)) }

/-- The invariant of claim C4: at most one rule per `(tier_id, path)`. -/
def atMostOneRulePerTierPath (db : Db) : Prop :=
  db.rateLimits.Pairwise (fun r1 r2 => r1.tier_id = r2.tier_id → r1.path ≠ r2.path)

instance (db : Db) : Decidable (atMostOneRulePerTierPath db) := by
  unfold atMostOneRulePerTierPath
  infer_instance

theorem applyUpdate_id (r : RateLimitRule) (v : RateLimitUpdate) :
    (applyUpdate r v).id = r.id := rfl

theorem applyUpdate_tier_id (r : RateLimitRule) (v : RateLimitUpdate) :
    (applyUpdate r v).tier_id = r.tier_id := rfl

theorem applyUpdate_path_none (r : RateLimitRule) (v : RateLimitUpdate)
    (h : v.path = none) : (applyUpdate r v).path = r.path := by
  simp [applyUpdate, h]

theorem applyUpdate_path_some (r : RateLimitRule) (v : RateLimitUpdate) (p : String)
    (h : v.path = some p) : (applyUpdate r v).path = p := by
  simp [applyUpdate, h]

/-- In a list of rules with pairwise distinct ids, two members with the same
id are the same rule. -/
theorem eq_of_mem_pairwise_ne_id : ∀ (l : List RateLimitRule),
    l.Pairwise (fun r1 r2 => r1.id ≠ r2.id) → ∀ a ∈ l, ∀ b ∈ l, a.id = b.id → a = b
  | [], _, a, ha, _, _, _ => absurd ha (List.not_mem_nil a)
  | x :: l, hpw, a, ha, b, hb, hab => by
    obtain ⟨hhead, htail⟩ := List.pairwise_cons.mp hpw
    rcases List.mem_cons.mp ha with rfl | ha' <;> rcases List.mem_cons.mp hb with rfl | hb'
    · rfl
    · exact absurd hab (hhead b hb')
    · exact absurd hab.symm (hhead a ha')
    · exact eq_of_mem_pairwise_ne_id l htail a ha' b hb' hab

/-! ### Claim C4 -/

/-- Concrete state for C4: one tier, one rule for `(tier 1, "users")`. -/
def c4_db0 : Db :=
  { tiers := [⟨1, "free"⟩],
    rateLimits := [⟨1, 1, "users", 5, 60, some "users:5:60"⟩],
    nextId := 2 }

/-- A creation request for the same tier and path under a fresh name. -/
def c4_req : RateLimitCreate := ⟨"users", 2, 30, some "users:2:30"⟩

/-- The state after `write_rate_limit c4_db0 "free" c4_req`. -/
def c4_db1 : Db :=
  { tiers := [⟨1, "free"⟩],
    rateLimits := [⟨1, 1, "users", 5, 60, some "users:5:60"⟩,
                   ⟨2, 1, "users", 2, 30, some "users:2:30"⟩],
    nextId := 3 }

/-- C4 counterexample: `write_rate_limit` only rejects duplicate *names*
(line 47 filters on `name`), so a request reusing an existing rule's
`(tier_id, path)` under a fresh name succeeds and the invariant is broken. -/
theorem write_rate_limit_breaks_path_uniqueness :
    write_rate_limit c4_db0 "free" c4_req
        = .ok (c4_db1, ⟨2, 1, "users", 2, 30, some "users:2:30"⟩)
    ∧ atMostOneRulePerTierPath c4_db0
    ∧ ¬ atMostOneRulePerTierPath c4_db1 :=
  ⟨rfl, by decide, by decide⟩

/-- C4 amended: `patch_rate_limit` preserves the at-most-one-rule-per
`(tier_id, path)` invariant (on states with distinct rule ids), but
`write_rate_limit` does not enforce it — it only rejects duplicate names and
can create a second rule with an existing `(tier_id, path)`. -/
theorem patch_rate_limit_preserves_path_uniqueness (db : Db) (tier_name : String)
    (id : Nat) (values : RateLimitUpdate) (db' : Db)
    (hids : db.rateLimits.Pairwise (fun r1 r2 => r1.id ≠ r2.id))
    (hinv : atMostOneRulePerTierPath db)
    (hok : patch_rate_limit db tier_name id values = .ok db') :
    atMostOneRulePerTierPath db' := by
  unfold patch_rate_limit at hok
  simp only [] at hok
  split at hok
  · exact absurd hok (by simp)
  next db_tier htier =>
  split at hok
  · exact absurd hok (by simp)
  next target hfind =>
  have htmem : target ∈ db.rateLimits := List.mem_of_find?_eq_some hfind
  have htpred := List.find?_some hfind
  have httier : target.tier_id = db_tier.id := by
    simp only [Bool.and_eq_true, beq_iff_eq] at htpred
    exact htpred.1
  by_cases hany : db.rateLimits.any
      (fun r => r.tier_id == db_tier.id && sqlEqOpt (some r.path) values.path) = true
  · rw [if_pos hany] at hok; exact absurd hok (by simp)
  · rw [if_neg hany, if_neg hany] at hok
    have hnomatch : ∀ r ∈ db.rateLimits, r.tier_id = db_tier.id →
        sqlEqOpt (some r.path) values.path = false := by
      intro r hr hrt
      by_contra hcon
      refine hany (List.any_eq_true.mpr ⟨r, hr, ?_⟩)
      simp only [Bool.and_eq_true, beq_iff_eq]
      exact ⟨hrt, by revert hcon; cases sqlEqOpt (some r.path) values.path <;> simp⟩
    have hdb' : db' = { db with rateLimits :=
        (db.rateLimits.map (fun r =>
          if r.id == target.id then applyUpdate r values else r)) } := by
      have := hok
      simp only [Except.ok.injEq] at this
      exact this.symm
    subst hdb'
    unfold atMostOneRulePerTierPath
    simp only [List.pairwise_map]
    have hcomb := hinv.and hids
    refine hcomb.imp_of_mem ?_
    intro a b ha hb hab
    obtain ⟨hPab, hneab⟩ := hab
    by_cases haid : a.id == target.id <;> by_cases hbid : b.id == target.id
    · exact absurd (by
        have h1 : a.id = target.id := by simpa using haid
        have h2 : b.id = target.id := by simpa using hbid
        omega) hneab
    · rw [if_pos haid, if_neg hbid]
      have haeq : a = target :=
        eq_of_mem_pairwise_ne_id db.rateLimits hids a ha target htmem (by simpa using haid)
      intro hteq
      cases hvp : values.path with
      | none => rw [applyUpdate_path_none a values hvp]; exact hPab (by
          rw [applyUpdate_tier_id] at hteq; exact hteq)
      | some p =>
        rw [applyUpdate_path_some a values p hvp]
        have hbt : b.tier_id = db_tier.id := by
          rw [applyUpdate_tier_id] at hteq
          rw [← hteq, haeq]
          exact httier
        have := hnomatch b hb hbt
        rw [hvp] at this
        simp only [sqlEqOpt, beq_eq_false_iff_ne, ne_eq] at this
        exact fun hbp => this hbp.symm
    · rw [if_neg haid, if_pos hbid]
      have hbeq : b = target :=
        eq_of_mem_pairwise_ne_id db.rateLimits hids b hb target htmem (by simpa using hbid)
      intro hteq
      cases hvp : values.path with
      | none => rw [applyUpdate_path_none b values hvp]; exact hPab (by
          rw [applyUpdate_tier_id] at hteq; exact hteq)
      | some p =>
        rw [applyUpdate_path_some b values p hvp]
        have hat : a.tier_id = db_tier.id := by
          rw [applyUpdate_tier_id] at hteq
          rw [hteq, hbeq]; exact httier
        have := hnomatch a ha hat
        rw [hvp] at this
        simp only [sqlEqOpt, beq_eq_false_iff_ne, ne_eq] at this
        exact this
    · rw [if_neg haid, if_neg hbid]; exact hPab

/-- Witness state for the amended C4: one tier, one rule, ids distinct. -/
def c4w_db : Db :=
  { tiers := [⟨1, "free"⟩],
    rateLimits := [⟨1, 1, "users", 5, 60, some "users:5:60"⟩],
    nextId := 2 }

/-- Witness update moving the rule to path `"posts"`. -/
def c4w_values : RateLimitUpdate := ⟨some "posts", none, none, none⟩

/-- The state after the witness patch. -/
def c4w_db' : Db :=
  { tiers := [⟨1, "free"⟩],
    rateLimits := [⟨1, 1, "posts", 5, 60, some "users:5:60"⟩],
    nextId := 2 }

/-- Witness for the amended C4. -/
theorem patch_rate_limit_preserves_path_uniqueness_witness :
    patch_rate_limit c4w_db "free" 1 c4w_values = .ok c4w_db'
    ∧ atMostOneRulePerTierPath c4w_db' :=
  ⟨rfl, patch_rate_limit_preserves_path_uniqueness c4w_db "free" 1 c4w_values c4w_db'
    (by decide) (by decide) rfl⟩

/-- C9: the duplicate-path check of `patch_rate_limit` (line 175) does not
exclude the rule being updated: whenever `values.path` equals the stored
path of any rule of the tier — the target rule itself included — the call
raises `DuplicateValueException` before any update is applied.  In
particular re-submitting a rule with its own current path is rejected. -/
theorem patch_rate_limit_rejects_own_path (db : Db) (tier_name : String) (id : Nat)
    (values : RateLimitUpdate) (db_tier : Tier) (r : RateLimitRule)
    (htier : getTierByName db tier_name = some db_tier)
    (hfind : (db.rateLimits.find?
      (fun r => r.tier_id == db_tier.id && r.id == id)).isSome)
    (hr : r ∈ db.rateLimits) (hrt : r.tier_id = db_tier.id)
    (hp : values.path = some r.path) :
    patch_rate_limit db tier_name id values
      = .error (.duplicateValue "There is already a rate limit for this path") := by
  obtain ⟨target, hfind'⟩ := Option.isSome_iff_exists.mp hfind
  have hany : db.rateLimits.any
      (fun r => r.tier_id == db_tier.id && sqlEqOpt (some r.path) values.path) = true := by
    refine List.any_eq_true.mpr ⟨r, hr, ?_⟩
    simp [hrt, hp, sqlEqOpt]
  unfold patch_rate_limit
  simp [htier, hfind', hany]

/-- Witness for C9: re-submitting the single existing rule's own path. -/
theorem patch_rate_limit_rejects_own_path_witness :
    patch_rate_limit c4w_db "free" 1 ⟨some "users", none, none, none⟩
      = .error (.duplicateValue "There is already a rate limit for this path") :=
  patch_rate_limit_rejects_own_path c4w_db "free" 1 ⟨some "users", none, none, none⟩
    ⟨1, "free"⟩ ⟨1, 1, "users", 5, 60, some "users:5:60"⟩
    rfl (by decide) (by decide) rfl rfl

/-- C10: the second `DuplicateValueException` branch of `patch_rate_limit`
(line 181, "There is already a rate limit with this name") is unreachable
for every input: it re-tests `db_rate_limit_path`, already known false, and
the unfiltered `exists()` result of line 179 is discarded. -/
theorem patch_rate_limit_name_branch_unreachable (db : Db) (tier_name : String)
    (id : Nat) (values : RateLimitUpdate) :
    patch_rate_limit db tier_name id values
      ≠ .error (.duplicateValue "There is already a rate limit with this name") := by
  unfold patch_rate_limit
  split
  · simp
  next db_tier _ =>
  split
  · simp
  next target _ =>
  simp only []
  by_cases hany : db.rateLimits.any
      (fun r => r.tier_id == db_tier.id && sqlEqOpt (some r.path) values.path) = true
  · rw [if_pos hany]
    intro h
    injection h with h'
    injection h' with h''
    exact absurd h'' (by decide)
  · rw [if_neg hany, if_neg hany]
    simp

/-- Witness instance of C10 at a concrete state and update. -/
theorem patch_rate_limit_name_branch_unreachable_witness :
    patch_rate_limit c4_db0 "free" 1 ⟨some "users", none, none, some "users:5:60"⟩
      ≠ .error (.duplicateValue "There is already a rate limit with this name") :=
  patch_rate_limit_name_branch_unreachable c4_db0 "free" 1
    ⟨some "users", none, none, some "users:5:60"⟩

/-! ### `rate_limiter` (src/app/api/dependencies.py, lines 119-161) -/

/-- `DefaultRateLimitSettings.DEFAULT_RATE_LIMIT_LIMIT`
(src/app/core/config.py, line 299; env default 10). -/
def DEFAULT_RATE_LIMIT_LIMIT : Nat := 10

/-- `DefaultRateLimitSettings.DEFAULT_RATE_LIMIT_PERIOD`
(src/app/core/config.py, line 300; env default 3600). -/
def DEFAULT_RATE_LIMIT_PERIOD : Nat := 3600

/-- The fields of the user row that `rate_limiter` reads; `tier_id` is a
nullable column (src/app/models/user.py, line 74). -/
structure UserRec where
  id : Nat
  tier_id : Option Nat

/-- `crud_rate_limits.get(db=db, tier_id=tier["id"], path=path)`. -/
def getRateLimit (db : Db) (tier_id : Nat) (path : String) : Option RateLimitRule :=
  db.rateLimits.find? (fun r => r.tier_id == tier_id && r.path == path)

/-- The identity and `(limit, period)` that `rate_limiter` settles on before
calling `is_rate_limited`; `warned` records that the fallback emitted a
`logger.warning` (lines 147-153) — a warning only, never an exception. -/
structure ResolvedPolicy where
  user_id : String
  limit : Nat
  period : Nat
  warned : Bool
deriving DecidableEq

/-- The resolution part of `rate_limiter` (dependencies.py, lines 139-157),
over the sanitized path: an authenticated user's tier rule when it exists;
the system defaults for an anonymous caller, a user with no tier, or a tier
with no rule for this path. -/
def resolveRateLimitPolicy (db : Db) (user : Option UserRec) (client_host : String)
    (path : String) : ResolvedPolicy :=
  match user with
  | some u =>
    match getTierById db u.tier_id with
    | some tier =>
      match getRateLimit db tier.id path with
      | some rate_limit => ⟨toString u.id, rate_limit.limit, rate_limit.period, false⟩
      | none => ⟨toString u.id, DEFAULT_RATE_LIMIT_LIMIT, DEFAULT_RATE_LIMIT_PERIOD, true⟩
    | none => ⟨toString u.id, DEFAULT_RATE_LIMIT_LIMIT, DEFAULT_RATE_LIMIT_PERIOD, true⟩
  | none => ⟨client_host, DEFAULT_RATE_LIMIT_LIMIT, DEFAULT_RATE_LIMIT_PERIOD, false⟩

inductive RateLimiterError where
  | storeFault (e : String)
  | rateLimit (msg : String)
deriving DecidableEq

/-- `rate_limiter` (dependencies.py, lines 119-161): sanitize the request
path, resolve the policy, run `is_rate_limited`, raise
`RateLimitException("Rate limit exceeded.")` on a hit.  Returns the request
outcome together with the store state after the call (unchanged when the
store call itself failed). -/
def rate_limiter (client : Option Redis) (db : Db) (user : Option UserRec)
    (client_host url_path : String) (now : Nat) :
    Except RateLimiterError Unit × Option Redis :=
  let path := sanitize_path url_path
  let pol := resolveRateLimitPolicy db user client_host path
  match is_rate_limited client pol.user_id path pol.limit pol.period now with
  | .error e => (.error (.storeFault e), client)
  | .ok (true, r) => (.error (.rateLimit "Rate limit exceeded."), some r)
  | .ok (false, r) => (.ok (), some r)

/-- A sequence of requests through `rate_limiter` for one caller and path,
threading the store; a rejected request does not stop later ones. -/
def runRateLimiter (client : Option Redis) (db : Db) (user : Option UserRec)
    (client_host url_path : String) :
    List Nat → List (Except RateLimiterError Unit) × Option Redis
  | [] => ([], client)
  | t :: ts =>
    let step := rate_limiter client db user client_host url_path t
    let rest := runRateLimiter step.2 db user client_host url_path ts
    (step.1 :: rest.1, rest.2)

/-- A run of default-policy requests (user with no tier) inside one window:
request `j` (0-based) succeeds iff `count₀ + j + 1 ≤ 10`. -/
theorem runRateLimiter_no_tier (db : Db) (u : UserRec) (client_host url_path : String)
    (w : Nat) (key : String)
    (hk : key = rlKey (toString u.id) (sanitize_path (sanitize_path url_path)) w)
    (htier : getTierById db u.tier_id = none) :
    ∀ (ts : List Nat) (r : Redis), r.fail = none →
      (∀ t' ∈ ts, windowStart t' DEFAULT_RATE_LIMIT_PERIOD = w) →
    ∃ r', runRateLimiter (some r) db (some u) client_host url_path ts
        = ((List.range ts.length).map (fun j =>
            if DEFAULT_RATE_LIMIT_LIMIT < r.store key + j + 1
            then .error (.rateLimit "Rate limit exceeded.") else .ok ()), some r')
      ∧ r'.fail = none ∧ r'.store key = r.store key + ts.length
  | [], r, hfail, _ => ⟨r, by simp [runRateLimiter], hfail, rfl⟩
  | t :: ts, r, hfail, hw => by
    obtain ⟨r1, hcall, hfail1, hstore1⟩ := is_rate_limited_ok r hfail
      (toString u.id) (sanitize_path url_path)
      DEFAULT_RATE_LIMIT_LIMIT DEFAULT_RATE_LIMIT_PERIOD t
    rw [hw t (List.mem_cons_self t ts), ← hk] at hcall hstore1
    have hr1key : r1.store key = r.store key + 1 := by rw [hstore1 key, if_pos rfl]
    obtain ⟨r', hrun, hfail', hkey'⟩ :=
      runRateLimiter_no_tier db u client_host url_path w key hk htier ts r1 hfail1
        (fun t' ht' => hw t' (List.mem_cons_of_mem t ht'))
    have hstep : rate_limiter (some r) db (some u) client_host url_path t
        = ((if DEFAULT_RATE_LIMIT_LIMIT < r.store key + 1
            then .error (.rateLimit "Rate limit exceeded.") else .ok ()), some r1) := by
      unfold rate_limiter
      simp only [resolveRateLimitPolicy, htier, hcall]
      by_cases hlt : DEFAULT_RATE_LIMIT_LIMIT < r.store key + 1
      · rw [decide_eq_true hlt, if_pos hlt]
      · rw [decide_eq_false hlt, if_neg hlt]
    refine ⟨r', ?_, hfail', ?_⟩
    · simp only [runRateLimiter, hstep, hrun, List.length_cons, List.range_succ_eq_map,
        List.map_cons, List.map_map]
      refine congrArg (fun l => (_ :: l, some r')) ?_
      refine List.map_congr_left (fun j _ => ?_)
      simp only [Function.comp_apply, hr1key]
      have harith : r.store key + (j + 1) + 1 = r.store key + 1 + j + 1 := by omega
      rw [harith]
    · rw [hkey', hr1key, List.length_cons]; omega

/-- C3: `rate_limiter` uses the authenticated user's tier rule for the
sanitized path when one exists, and in every other case — anonymous caller,
user with no tier, tier with no rule for this path — falls back to the
system defaults `DEFAULT_RATE_LIMIT_LIMIT = 10`,
`DEFAULT_RATE_LIMIT_PERIOD = 3600` with a warning only (never an error);
in particular a user with no tier has the 11th request of an hour window
rejected with the rate-limit error. -/
theorem rate_limiter_policy_resolution :
    (DEFAULT_RATE_LIMIT_LIMIT = 10 ∧ DEFAULT_RATE_LIMIT_PERIOD = 3600)
    ∧ (∀ (db : Db) (u : UserRec) (host path : String) (tier : Tier)
        (rule : RateLimitRule),
        getTierById db u.tier_id = some tier → getRateLimit db tier.id path = some rule →
        resolveRateLimitPolicy db (some u) host path
          = ⟨toString u.id, rule.limit, rule.period, false⟩)
    ∧ (∀ (db : Db) (host path : String),
        resolveRateLimitPolicy db none host path
          = ⟨host, DEFAULT_RATE_LIMIT_LIMIT, DEFAULT_RATE_LIMIT_PERIOD, false⟩)
    ∧ (∀ (db : Db) (u : UserRec) (host path : String),
        getTierById db u.tier_id = none →
        resolveRateLimitPolicy db (some u) host path
          = ⟨toString u.id, DEFAULT_RATE_LIMIT_LIMIT, DEFAULT_RATE_LIMIT_PERIOD, true⟩)
    ∧ (∀ (db : Db) (u : UserRec) (host path : String) (tier : Tier),
        getTierById db u.tier_id = some tier → getRateLimit db tier.id path = none →
        resolveRateLimitPolicy db (some u) host path
          = ⟨toString u.id, DEFAULT_RATE_LIMIT_LIMIT, DEFAULT_RATE_LIMIT_PERIOD, true⟩)
    ∧ (∀ (db : Db) (u : UserRec) (host : String) (t : Nat),
        getTierById db u.tier_id = none →
        ∃ r', runRateLimiter (some freshRedis) db (some u) host "/users"
            (List.replicate 11 t)
          = (List.replicate 10 (Except.ok ())
              ++ [Except.error (RateLimiterError.rateLimit "Rate limit exceeded.")],
             some r')) := by
  refine ⟨⟨rfl, rfl⟩, ?_, ?_, ?_, ?_, ?_⟩
  · intro db u host path tier rule htier hrule
    simp [resolveRateLimitPolicy, htier, hrule]
  · intro db host path
    simp [resolveRateLimitPolicy]
  · intro db u host path htier
    simp [resolveRateLimitPolicy, htier]
  · intro db u host path tier htier hrule
    simp [resolveRateLimitPolicy, htier, hrule]
  · intro db u host t htier
    obtain ⟨r', hrun, -, -⟩ := runRateLimiter_no_tier db u host "/users"
      (windowStart t DEFAULT_RATE_LIMIT_PERIOD) _ rfl htier
      (List.replicate 11 t) freshRedis rfl
      (fun t' ht' => by rw [List.eq_of_mem_replicate ht'])
    rw [List.length_replicate] at hrun
    exact ⟨r', hrun⟩

/-- Witness database for C3's fallback scenario: no tiers, no rules. -/
def c3_db : Db := ⟨[], [], 1⟩

/-- Witness for C3: a user with unset tier gets the defaults with a warning,
and the 11th request of the hour window is rejected. -/
theorem rate_limiter_policy_resolution_witness :
    resolveRateLimitPolicy c3_db (some ⟨7, none⟩) "10.0.0.1" "users"
      = ⟨toString (7 : Nat), DEFAULT_RATE_LIMIT_LIMIT, DEFAULT_RATE_LIMIT_PERIOD, true⟩
    ∧ ∃ r', runRateLimiter (some freshRedis) c3_db (some ⟨7, none⟩) "10.0.0.1" "/users"
        (List.replicate 11 0)
      = (List.replicate 10 (Except.ok ())
          ++ [Except.error (RateLimiterError.rateLimit "Rate limit exceeded.")],
         some r') :=
  ⟨rate_limiter_policy_resolution.2.2.2.1 c3_db ⟨7, none⟩ "10.0.0.1" "users" rfl,
   rate_limiter_policy_resolution.2.2.2.2.2 c3_db ⟨7, none⟩ "10.0.0.1" 0 rfl⟩

/-! ### Tokens (src/app/core/security.py)

`jwt.decode(token, SECRET_KEY, algorithms=[ALGORITHM])` is abstracted as an
oracle `decode : String → Option JwtPayload`; `none` stands for any
`JWTError` (bad signature, expired token, garbage).  The claims quantify
over the oracle, which is exactly "independent of signature and expiry". -/

structure JwtPayload where
  sub : Option String
  exp : Nat

structure TokenData where
  username_or_email : String
deriving DecidableEq

/-- A row of the `token_blacklist` table
(src/app/core/db/token_blacklist.py). -/
structure BlacklistEntry where
  token : String
  expires_at : Nat
deriving DecidableEq

structure AuthDb where
  blacklist : List BlacklistEntry
deriving DecidableEq

/-- `verify_token` (security.py, lines 151-178): the blacklist existence
check runs first — on any row holding this token, whatever its
`expires_at` — and only then is the JWT decoded. -/
def verify_token (decode : String → Option JwtPayload) (adb : AuthDb)
    (token : String) : Option TokenData :=
  if adb.blacklist.any (fun e => e.token == token) then none
  else
    match decode token with
    | none => none
    | some payload =>
      match payload.sub with
      | none => none
      | some s => some ⟨s⟩

/-- `blacklist_token` (security.py, lines 181-196): decode the token (an
undecodable token raises) and insert `{token, expires_at := payload exp}`
into the blacklist. -/
def blacklist_token (decode : String → Option JwtPayload) (adb : AuthDb)
    (token : String) : Except String AuthDb :=
  match decode token with
  | none => .error "JWTError"
  | some payload => .ok ⟨⟨token, payload.exp⟩ :: adb.blacklist⟩

/-- C5: a bearer token with a (non-expired) blacklist row is rejected by
`verify_token` — it returns `none` whatever the decode oracle says, hence
independent of the token's own signature and expiry and before any
verification is attempted — and `blacklist_token` inserts such a row for
the presented token at logout. -/
theorem verify_token_blacklist (adb : AuthDb) (token : String) (now : Nat)
    (e : BlacklistEntry) (he : e ∈ adb.blacklist) (het : e.token = token)
    (hexp : now < e.expires_at) :
    (∀ decode, verify_token decode adb token = none)
    ∧ (∀ (decode : String → Option JwtPayload) (tok' : String) (payload : JwtPayload),
        decode tok' = some payload →
        ∃ adb', blacklist_token decode adb tok' = .ok adb'
          ∧ (⟨tok', payload.exp⟩ : BlacklistEntry) ∈ adb'.blacklist) := by
  constructor
  · intro decode
    unfold verify_token
    rw [if_pos (List.any_eq_true.mpr ⟨e, he, by simp [het]⟩)]
  · intro decode tok' payload hdec
    unfold blacklist_token
    rw [hdec]
    exact ⟨_, rfl, List.mem_cons_self _ _⟩

/-- Witness for C5: a blacklisted token is refused even under an oracle
that would decode it happily, and logout inserts the row. -/
theorem verify_token_blacklist_witness :
    verify_token (fun _ => some ⟨some "alice", 9999⟩) ⟨[⟨"tkn", 100⟩]⟩ "tkn" = none
    ∧ ∃ adb', blacklist_token (fun _ => some ⟨some "alice", 9999⟩)
        ⟨[⟨"tkn", 100⟩]⟩ "tkn2" = .ok adb'
      ∧ (⟨"tkn2", 9999⟩ : BlacklistEntry) ∈ adb'.blacklist :=
  ⟨(verify_token_blacklist ⟨[⟨"tkn", 100⟩]⟩ "tkn" 50 ⟨"tkn", 100⟩
      (List.mem_cons_self _ _) rfl (by decide)).1 _,
   (verify_token_blacklist ⟨[⟨"tkn", 100⟩]⟩ "tkn" 50 ⟨"tkn", 100⟩
      (List.mem_cons_self _ _) rfl (by decide)).2 _ "tkn2" ⟨some "alice", 9999⟩ rfl⟩

/-! ### `get_optional_user` (src/app/api/dependencies.py, lines 57-95) -/

/-- Python `str.lower()`. -/
def lowerStr (s : String) : String := ⟨s.data.map Char.toLower⟩

/-- Python `token.partition(" ")`, keeping the pieces before and after the
first space (the separator itself is dropped); with no space the second
piece is empty. -/
def partitionSpace (s : String) : String × String :=
  let pre := s.data.takeWhile (· ≠ ' ')
  (⟨pre⟩, ⟨s.data.drop (pre.length + 1)⟩)

inductive AuthErr where
  | httpEx (status : Nat) (detail : String)
  | unexpected (msg : String)
deriving DecidableEq

/-- `get_current_user` (dependencies.py, lines 24-54) for an already
extracted bearer token: verify it, then look the user up by email or
username — through an oracle `usersGet` whose `error` outcome models an
unexpected store fault; a failed verification or a missing user raises
`UnauthorizedException` (`HTTPException` 401). -/
def get_current_user (decode : String → Option JwtPayload)
    (usersGet : Bool → String → Except String (Option UserRec)) (adb : AuthDb)
    (token : String) : Except AuthErr UserRec :=
  match verify_token decode adb token with
  | none => .error (.httpEx 401 "User not authenticated.")
  | some td =>
    match usersGet (td.username_or_email.contains '@') td.username_or_email with
    | .error msg => .error (.unexpected msg)
    | .ok (some u) => .ok u
    | .ok none => .error (.httpEx 401 "User not authenticated.")

/-- The body of `get_optional_user`'s `try` block (dependencies.py,
lines 77-86). -/
def get_optional_user_body (decode : String → Option JwtPayload)
    (usersGet : Bool → String → Except String (Option UserRec)) (adb : AuthDb)
    (token : String) : Except AuthErr (Option UserRec) :=
  let parts := partitionSpace token
  if lowerStr parts.1 ≠ "bearer" ∨ parts.2 = "" then .ok none
  else
    match verify_token decode adb parts.2 with
    | none => .ok none
    | some _ =>
      match get_current_user decode usersGet adb parts.2 with
      | .ok u => .ok (some u)
      | .error e => .error e

/-- `get_optional_user` (dependencies.py, lines 57-95): a missing or falsy
`Authorization` header short-circuits to `None`; the `try` body runs and
both `except` handlers turn any raised error into `None`. -/
def get_optional_user (decode : String → Option JwtPayload)
    (usersGet : Bool → String → Except String (Option UserRec)) (adb : AuthDb)
    (authHeader : Option String) : Except AuthErr (Option UserRec) :=
  match authHeader with
  | none => .ok none
  | some token =>
    if token = "" then .ok none
    else
      match get_optional_user_body decode usersGet adb token with
      | .ok v => .ok v
      | .error _ => .ok none

/-- C6: `get_optional_user` never raises — for every header, store content
and oracle behaviour it returns a value; and a missing header, a non-Bearer
scheme, an empty token value, a token failing blacklist/signature/expiry
validation, and any error escaping the `try` body all yield the anonymous
identity `none`. -/
theorem get_optional_user_never_raises (decode : String → Option JwtPayload)
    (usersGet : Bool → String → Except String (Option UserRec)) (adb : AuthDb)
    (authHeader : Option String) :
    (∃ v, get_optional_user decode usersGet adb authHeader = .ok v)
    ∧ (authHeader = none → get_optional_user decode usersGet adb authHeader = .ok none)
    ∧ (∀ token, authHeader = some token →
        ((lowerStr (partitionSpace token).1 ≠ "bearer" ∨ (partitionSpace token).2 = "") →
          get_optional_user decode usersGet adb authHeader = .ok none)
        ∧ (verify_token decode adb (partitionSpace token).2 = none →
          get_optional_user decode usersGet adb authHeader = .ok none)
        ∧ (∀ e, get_optional_user_body decode usersGet adb token = .error e →
          get_optional_user decode usersGet adb authHeader = .ok none)) := by
  refine ⟨?_, ?_, ?_⟩
  · cases authHeader with
    | none => exact ⟨none, rfl⟩
    | some token =>
      by_cases h0 : token = ""
      · exact ⟨none, by simp [get_optional_user, h0]⟩
      · cases hbody : get_optional_user_body decode usersGet adb token with
        | ok v => exact ⟨v, by simp [get_optional_user, h0, hbody]⟩
        | error e => exact ⟨none, by simp [get_optional_user, h0, hbody]⟩
  · intro h; subst h; rfl
  · intro token h
    subst h
    by_cases h0 : token = ""
    · exact ⟨fun _ => by simp [get_optional_user, h0],
             fun _ => by simp [get_optional_user, h0],
             fun _ _ => by simp [get_optional_user, h0]⟩
    · refine ⟨?_, ?_, ?_⟩
      · intro hbad
        have hbody : get_optional_user_body decode usersGet adb token = .ok none := by
          unfold get_optional_user_body
          rw [if_pos hbad]
        simp [get_optional_user, h0, hbody]
      · intro hver
        have hbody : get_optional_user_body decode usersGet adb token = .ok none := by
          unfold get_optional_user_body
          by_cases hbad : lowerStr (partitionSpace token).1 ≠ "bearer"
              ∨ (partitionSpace token).2 = ""
          · rw [if_pos hbad]
          · rw [if_neg hbad, hver]
        simp [get_optional_user, h0, hbody]
      · intro e hbody
        simp [get_optional_user, h0, hbody]

/-- Witness for C6: a well-formed header over an oracle that rejects every
token degrades to anonymous, and so does a missing header. -/
theorem get_optional_user_never_raises_witness :
    get_optional_user (fun _ => none) (fun _ _ => Except.ok none) ⟨[]⟩
        (some "Bearer abc") = .ok none
    ∧ get_optional_user (fun _ => none) (fun _ _ => Except.ok none) ⟨[]⟩
        none = .ok none :=
  ⟨((get_optional_user_never_raises (fun _ => none) (fun _ _ => Except.ok none) ⟨[]⟩
      (some "Bearer abc")).2.2 "Bearer abc" rfl).2.1 rfl,
   (get_optional_user_never_raises (fun _ => none) (fun _ _ => Except.ok none) ⟨[]⟩
      none).2.1 rfl⟩

end FastApiBoilerplate
